import Mathlib

/-!
Verification of the slogrus logging adapter: a shallow embedding of the
repository's severity model, logger, entry (record) and formatter wiring,
with theorems settling the specified properties.

Two package variants exist in the repository: the `slogrus` variant with
unexported `level`/`out` fields on `Logger` and no exported `Logger` field
on `Entry`, and the `logrus` variant whose `Logger` exposes `Level`, `Out`
and `Formatter` fields and whose `Entry` exposes a public `Logger` field.
Both are embedded below, in namespaces `Slogrus` and `LogrusPub`.
-/

namespace Slogrus

/-- Go `Level` is a `uint32`; the named constants are 0..6 in order of
decreasing severity.  We embed it as `Nat` (the claims only involve values
far below `2^32`, where `uint32` comparison agrees with `Nat` comparison). -/
abbrev Level := Nat

def PanicLevel : Level := 0
def FatalLevel : Level := 1
def ErrorLevel : Level := 2
def WarnLevel : Level := 3
def InfoLevel : Level := 4
def DebugLevel : Level := 5
def TraceLevel : Level := 6

/-- `AllLevels` from the source: all seven named levels. -/
def AllLevels : List Level :=
  [PanicLevel, FatalLevel, ErrorLevel, WarnLevel, InfoLevel, DebugLevel, TraceLevel]

/-- The backend (`log/slog`) severity constants, external collaborators. -/
def slogLevelDebug : Int := -4
def slogLevelInfo : Int := 0
def slogLevelWarn : Int := 4
def slogLevelError : Int := 8

/-- `Level.String` from the source: canonical lowercase name, `"unknown"`
for any value outside the named set. -/
def Level.String (level : Level) : String :=
  if level = TraceLevel then "trace"
  else if level = DebugLevel then "debug"
  else if level = InfoLevel then "info"
  else if level = WarnLevel then "warning"
  else if level = ErrorLevel then "error"
  else if level = FatalLevel then "fatal"
  else if level = PanicLevel then "panic"
  else "unknown"

/-- `Level.toSlogLevel` from the source: the deterministic mapping into the
backend severity space. -/
def Level.toSlogLevel (level : Level) : Int :=
  if level = TraceLevel then slogLevelDebug - 4
  else if level = DebugLevel then slogLevelDebug
  else if level = InfoLevel then slogLevelInfo
  else if level = WarnLevel then slogLevelWarn
  else if level = ErrorLevel then slogLevelError
  else if level = FatalLevel then slogLevelError + 4
  else if level = PanicLevel then slogLevelError + 8
  else slogLevelInfo

/-- `ParseError` from the source, carrying its message. -/
structure ParseError where
  msg : String
deriving DecidableEq, Repr

/-- `ParseLevel` from the source.  Go returns a `(Level, error)` pair: we
return the level together with `none` for a nil error, or `some e` for the
parse error.  The Go `switch` on the string is a sequence of equality
tests. -/
def ParseLevel (lvl : String) : Level × Option ParseError :=
  if lvl = "panic" then (PanicLevel, none)
  else if lvl = "fatal" then (FatalLevel, none)
  else if lvl = "error" then (ErrorLevel, none)
  else if lvl = "warn" then (WarnLevel, none)
  else if lvl = "warning" then (WarnLevel, none)
  else if lvl = "info" then (InfoLevel, none)
  else if lvl = "debug" then (DebugLevel, none)
  else if lvl = "trace" then (TraceLevel, none)
  else (InfoLevel, some ⟨"not a valid logrus Level: \"" ++ lvl ++ "\""⟩)

/-- A dynamically-typed Go value (`interface` value) as it occurs in log
arguments and field containers. -/
inductive GoValue
  | str (s : String)
  | num (n : Int)
  | boolean (b : Bool)
  | errv (msg : String)
deriving DecidableEq, Repr

/-- The default rendering of a Go value by the `fmt` package. -/
def GoValue.render : GoValue → String
  | .str s => s
  | .num n => toString n
  | .boolean b => toString b
  | .errv m => m

/-- Whether an operand is a string (controls `fmt.Sprint` space insertion). -/
def GoValue.isStr : GoValue → Bool
  | .str _ => true
  | _ => false

/-- Models the external `fmt.Sprint`: operands concatenated, with a space
added between two consecutive operands when neither is a string. -/
def sprint : List GoValue → String
  | [] => ""
  | [a] => a.render
  | a :: b :: rest =>
      a.render ++ (if a.isStr || b.isStr then "" else " ") ++ sprint (b :: rest)

/-- Models the external `fmt.Sprintln`: operands space-separated and a
trailing newline appended. -/
def sprintln (args : List GoValue) : String :=
  String.intercalate " " (args.map GoValue.render) ++ "\n"

/-- Models the external `fmt.Sprintf` as an abstract deterministic
rendering of the format string and the arguments; no claim depends on the
verb semantics, only on the same message flowing through the call. -/
def sprintf (format : String) (args : List GoValue) : String :=
  (args.map GoValue.render).foldl (fun acc a => acc ++ a) format

/-- The rendering kind of a backend handler: `log/slog`'s text handler,
its JSON handler, or any other `slog.Handler` implementation. -/
inductive HandlerKind
  | text
  | json
  | other
deriving DecidableEq, Repr

/-- A backend handler handle, immutable once built: its rendering kind, the
minimum-severity floor it was constructed with, and the output target it
was constructed with (writers identified by id). -/
structure Handler where
  kind : HandlerKind
  floor : Int
  out : Nat
deriving DecidableEq, Repr

/-- Writer id of the process standard-error stream. -/
def stderrId : Nat := 0

/-- The `slogrus` variant `Logger`: a backend handle (we record the handler
the wrapped `slog.Logger` was built over), the locally cached minimum
level, and the output target. -/
structure Logger where
  handler : Handler
  level : Level
  out : Nat
deriving DecidableEq, Repr

/-- `New` from the source: text handler on stderr at the backend Info
floor, cached level Info. -/
def New : Logger :=
  { handler := { kind := .text, floor := slogLevelInfo, out := stderrId }
    level := InfoLevel
    out := stderrId }

/-- `NewWithHandler` from the source: adopts the given handler, defaults
the cached level to Info and the output field to stderr. -/
def NewWithHandler (handler : Handler) : Logger :=
  { handler := handler, level := InfoLevel, out := stderrId }

/-- `FromSlogLogger` from the source: adopts the handler of an existing
backend logger, defaulting the cached level to Info and the output field
to stderr. -/
def FromSlogLogger (handler : Handler) : Logger :=
  { handler := handler, level := InfoLevel, out := stderrId }

/-- `Logger.SetOutput` from the source: stores the new output target, then
rebuilds the backend handle at that target with the cached level's floor —
but only when the current handler is the backend text or JSON handler. -/
def Logger.SetOutput (logger : Logger) (out : Nat) : Logger :=
  let logger := { logger with out := out }
  match logger.handler.kind with
  | .text => { logger with handler := { kind := .text, floor := logger.level.toSlogLevel, out := out } }
  | .json => { logger with handler := { kind := .json, floor := logger.level.toSlogLevel, out := out } }
  | .other => logger

/-- `Logger.SetLevel` from the source: stores the new cached level, then
rebuilds the backend handle with the corresponding floor — but only when
the current handler is the backend text or JSON handler. -/
def Logger.SetLevel (logger : Logger) (level : Level) : Logger :=
  let logger := { logger with level := level }
  match logger.handler.kind with
  | .text => { logger with handler := { kind := .text, floor := level.toSlogLevel, out := logger.out } }
  | .json => { logger with handler := { kind := .json, floor := level.toSlogLevel, out := logger.out } }
  | .other => logger

/-- `Logger.GetLevel` from the source. -/
def Logger.GetLevel (logger : Logger) : Level :=
  logger.level

/-- `Logger.IsLevelEnabled` from the source: `level <= logger.level` on the
numeric values. -/
def Logger.IsLevelEnabled (logger : Logger) (level : Level) : Bool :=
  level ≤ logger.level

/-! ## Heap model for Go maps

A Go map value is a reference into the heap; `make` allocates, indexing
assignment mutates in place.  We model the heap as a list of map contents,
addressed by index, so that mutation and aliasing are explicit and the
copy-on-write behaviour of the widening operations is a real theorem. -/

/-- The contents of a `Fields` map: an association list with unique keys,
maintained by `mapSet` (replace on existing key, append on new key). -/
abbrev FieldsData := List (String × GoValue)

/-- In-place map assignment `m[k] = v` on the contents level. -/
def mapSet : FieldsData → String → GoValue → FieldsData
  | [], k, v => [(k, v)]
  | (k', v') :: rest, k, v =>
      if k' = k then (k, v) :: rest else (k', v') :: mapSet rest k v

/-- Map lookup `m[k]` on the contents level. -/
def mapGet (m : FieldsData) (k : String) : Option GoValue :=
  m.lookup k

/-- The heap of allocated `Fields` maps; an address is an index. -/
structure Heap where
  maps : List FieldsData
deriving DecidableEq, Repr

/-- `make(Fields, n)`: allocates a fresh empty map, returning its address
(the capacity hint does not affect contents). -/
def Heap.alloc (h : Heap) : Nat × Heap :=
  (h.maps.length, ⟨h.maps ++ [[]]⟩)

/-- Reads the contents of the map at an address. -/
def Heap.read (h : Heap) (a : Nat) : Option FieldsData :=
  h.maps[a]?

/-- In-place assignment `h[a][k] = v`. -/
def Heap.write (h : Heap) (a : Nat) (k : String) (v : GoValue) : Heap :=
  ⟨h.maps.set a (mapSet (h.maps[a]?.getD []) k v)⟩

/-- The copy loop `for k, v := range src { dst[k] = v }`. -/
def Heap.copyInto (h : Heap) (dst : Nat) : FieldsData → Heap
  | [] => h
  | (k, v) :: rest => (h.write dst k v).copyInto dst rest

/-- Caller information attached to an entry. -/
structure Caller where
  File : String
  Line : Nat
  Function : String
deriving DecidableEq, Repr

/-- The shared background context (`context.Background()`), by id. -/
def backgroundContext : Nat := 0

/-- The `slogrus` variant `Entry`: owning logger, address of its `Fields`
map in the heap, timestamp, level, optional caller, context id. -/
structure Entry where
  logger : Logger
  Data : Nat
  Time : Nat
  Level : Level
  Caller : Option Caller
  Context : Nat
deriving DecidableEq, Repr

/-- `NewEntry` from the source: fresh pre-sized empty map, current time,
background context (the `Level` and `Caller` fields keep their zero
values). -/
def NewEntry (h : Heap) (logger : Logger) (now : Nat) : Entry × Heap :=
  let (addr, h) := h.alloc
  ({ logger := logger, Data := addr, Time := now, Level := 0, Caller := none
     Context := backgroundContext }, h)

/-- `Entry.WithField` from the source: allocate a map pre-sized to the old
size plus one, copy every existing pair, add the new pair, and return a new
entry sharing every field but `Data`. -/
def Entry.WithField (entry : Entry) (h : Heap) (key : String) (value : GoValue) :
    Entry × Heap :=
  let (addr, h) := h.alloc
  let h := h.copyInto addr ((h.read entry.Data).getD [])
  let h := h.write addr key value
  ({ logger := entry.logger, Data := addr, Time := entry.Time, Level := entry.Level
     Caller := entry.Caller, Context := entry.Context }, h)

/-- `Entry.WithFields` from the source: allocate, copy the existing pairs,
overlay the additional pairs (additional wins on collision), and return a
new entry sharing every field but `Data`. -/
def Entry.WithFields (entry : Entry) (h : Heap) (fields : FieldsData) :
    Entry × Heap :=
  let (addr, h) := h.alloc
  let h := h.copyInto addr ((h.read entry.Data).getD [])
  let h := h.copyInto addr fields
  ({ logger := entry.logger, Data := addr, Time := entry.Time, Level := entry.Level
     Caller := entry.Caller, Context := entry.Context }, h)

/-- `Entry.WithContext` from the source: defensively copy the map, replace
the context. -/
def Entry.WithContext (entry : Entry) (h : Heap) (ctx : Nat) : Entry × Heap :=
  let (addr, h) := h.alloc
  let h := h.copyInto addr ((h.read entry.Data).getD [])
  ({ logger := entry.logger, Data := addr, Time := entry.Time, Level := entry.Level
     Caller := entry.Caller, Context := ctx }, h)

/-- `Entry.WithTime` from the source: defensively copy the map, replace the
timestamp. -/
def Entry.WithTime (entry : Entry) (h : Heap) (t : Nat) : Entry × Heap :=
  let (addr, h) := h.alloc
  let h := h.copyInto addr ((h.read entry.Data).getD [])
  ({ logger := entry.logger, Data := addr, Time := t, Level := entry.Level
     Caller := entry.Caller, Context := entry.Context }, h)

/-! ## Emission traces

Each internal logging method is embedded as a function producing the list
of observable events it performs, in order: message formatting, backend
emission (with or without attributes), process exit, panic. -/

/-- An observable event of a logging call. -/
inductive Event
  | fmtMsg (msg : String)
  | emit (ctx : Nat) (lvl : Int) (msg : String)
  | emitAttrs (ctx : Nat) (lvl : Int) (msg : String) (attrs : FieldsData)
  | exitProc (code : Nat)
  | panicked (msg : String)
deriving DecidableEq, Repr

/-- The Fatal/Panic post-emission handling shared by every logging method:
`os.Exit(1)` at Fatal, `panic(msg)` at Panic, nothing otherwise. -/
def fatalPanicTail (level : Level) (msg : String) : List Event :=
  if level = FatalLevel then [.exitProc 1]
  else if level = PanicLevel then [.panicked msg]
  else []

/-- Strips one trailing newline from a message, as the `logln` methods do
(`msg[len(msg)-1] == '\n'` then reslice; the trailing byte `'\n'` is
exactly the trailing character `'\n'` in valid UTF-8). -/
def stripTrailingNewline (msg : String) : String :=
  if 0 < msg.length ∧ msg.data.getLast? = some '\n' then ⟨msg.data.dropLast⟩
  else msg

/-- `Logger.log` from the source: level check, `fmt.Sprint`, zero-attribute
backend emit with the shared background context, Fatal/Panic handling. -/
def Logger.log (logger : Logger) (level : Level) (args : List GoValue) :
    List Event :=
  if logger.IsLevelEnabled level then
    let msg := sprint args
    [.fmtMsg msg, .emit backgroundContext level.toSlogLevel msg] ++
      fatalPanicTail level msg
  else []

/-- `Logger.logf` from the source: level check, `fmt.Sprintf`, emit,
Fatal/Panic handling. -/
def Logger.logf (logger : Logger) (level : Level) (format : String)
    (args : List GoValue) : List Event :=
  if logger.IsLevelEnabled level then
    let msg := sprintf format args
    [.fmtMsg msg, .emit backgroundContext level.toSlogLevel msg] ++
      fatalPanicTail level msg
  else []

/-- `Logger.logln` from the source: level check, `fmt.Sprintln` with the
trailing newline stripped, emit, Fatal/Panic handling. -/
def Logger.logln (logger : Logger) (level : Level) (args : List GoValue) :
    List Event :=
  if logger.IsLevelEnabled level then
    let msg := stripTrailingNewline (sprintln args)
    [.fmtMsg msg, .emit backgroundContext level.toSlogLevel msg] ++
      fatalPanicTail level msg
  else []

/-- The emission step shared by the `Entry` logging methods: zero-attribute
emit when the entry's map is empty, attributed emit otherwise. -/
def emitEntry (h : Heap) (entry : Entry) (level : Level) (msg : String) :
    List Event :=
  let data := (h.read entry.Data).getD []
  if data.length = 0 then
    [.emit entry.Context level.toSlogLevel msg]
  else
    [.emitAttrs entry.Context level.toSlogLevel msg data]

/-- `Entry.log` from the source: level check on the owning logger,
`fmt.Sprint`, fast or attributed emit, Fatal/Panic handling. -/
def Entry.log (entry : Entry) (h : Heap) (level : Slogrus.Level) (args : List GoValue) :
    List Event :=
  if entry.logger.IsLevelEnabled level then
    let msg := sprint args
    [.fmtMsg msg] ++ emitEntry h entry level msg ++ fatalPanicTail level msg
  else []

/-- `Entry.logf` from the source. -/
def Entry.logf (entry : Entry) (h : Heap) (level : Slogrus.Level) (format : String)
    (args : List GoValue) : List Event :=
  if entry.logger.IsLevelEnabled level then
    let msg := sprintf format args
    [.fmtMsg msg] ++ emitEntry h entry level msg ++ fatalPanicTail level msg
  else []

/-- `Entry.logln` from the source. -/
def Entry.logln (entry : Entry) (h : Heap) (level : Slogrus.Level) (args : List GoValue) :
    List Event :=
  if entry.logger.IsLevelEnabled level then
    let msg := stripTrailingNewline (sprintln args)
    [.fmtMsg msg] ++ emitEntry h entry level msg ++ fatalPanicTail level msg
  else []

end Slogrus

namespace LogrusPub

open Slogrus (Level Handler HandlerKind Heap FieldsData GoValue Caller
  backgroundContext stderrId slogLevelInfo)

/-- A `Formatter` interface value held by the `logrus` variant logger: a
`*TextFormatter` (with its three option flags), a `*JSONFormatter` (with
its two option flags), some other implementation of the interface, or the
nil interface value. -/
inductive FormatterV
  | textF (disableColors fullTimestamp forceColors : Bool)
  | jsonF (disableTimestamp disableHTMLEscape : Bool)
  | otherF
  | nilF
deriving DecidableEq, Repr

/-- The `logrus` variant `Logger` with exported `Level`, `Out` and
`Formatter` fields alongside the backend handle. -/
structure LoggerP where
  handler : Handler
  Level : Level
  Out : Nat
  Formatter : FormatterV
deriving DecidableEq, Repr

/-- `SetFormatter` from the source: rebuilds the standard logger's backend
handle at its current level and output; a `*TextFormatter` argument yields
a text handler, a `*JSONFormatter` a JSON handler, and anything else
(including nil) defaults to a text handler with a fresh `TextFormatter`
stored in the `Formatter` field.  The standard logger is threaded as
explicit state. -/
def SetFormatter (std : LoggerP) (formatter : FormatterV) : LoggerP :=
  let floor := std.Level.toSlogLevel
  match formatter with
  | .textF _ _ _ =>
      { std with handler := { kind := .text, floor := floor, out := std.Out }
                 Formatter := formatter }
  | .jsonF _ _ =>
      { std with handler := { kind := .json, floor := floor, out := std.Out }
                 Formatter := formatter }
  | _ =>
      { std with handler := { kind := .text, floor := floor, out := std.Out }
                 Formatter := .textF false false false }

/-- The `logrus` variant `Entry`, which additionally exposes a public
`Logger` field (a nilable pointer, modelled as an optional logger id; the
unexported `logger` field is the owning logger's id). -/
structure EntryP where
  logger : Nat
  Data : Nat
  Time : Nat
  Level : Level
  Caller : Option Caller
  Context : Nat
  Logger : Option Nat
deriving DecidableEq, Repr

/-- `NewEntry` from the source (`logrus` variant): both the unexported
`logger` field and the exported `Logger` field are set to the owning
logger. -/
def NewEntryP (h : Heap) (loggerId : Nat) (now : Nat) : EntryP × Heap :=
  let (addr, h) := h.alloc
  ({ logger := loggerId, Data := addr, Time := now, Level := 0, Caller := none
     Context := backgroundContext, Logger := some loggerId }, h)

/-- `Entry.WithField` from the source (`logrus` variant): copies the map
into a fresh one, adds the pair, and sets the exported `Logger` field to
the owning logger. -/
def EntryP.WithField (entry : EntryP) (h : Heap) (key : String) (value : GoValue) :
    EntryP × Heap :=
  let (addr, h) := h.alloc
  let h := h.copyInto addr ((h.read entry.Data).getD [])
  let h := h.write addr key value
  ({ logger := entry.logger, Data := addr, Time := entry.Time, Level := entry.Level
     Caller := entry.Caller, Context := entry.Context, Logger := some entry.logger }, h)

/-- `Entry.WithFields` from the source (`logrus` variant). -/
def EntryP.WithFields (entry : EntryP) (h : Heap) (fields : FieldsData) :
    EntryP × Heap :=
  let (addr, h) := h.alloc
  let h := h.copyInto addr ((h.read entry.Data).getD [])
  let h := h.copyInto addr fields
  ({ logger := entry.logger, Data := addr, Time := entry.Time, Level := entry.Level
     Caller := entry.Caller, Context := entry.Context, Logger := some entry.logger }, h)

/-- `Entry.WithContext` from the source (`logrus` variant): the composite
literal omits the exported `Logger` field, which therefore takes its zero
value, nil. -/
def EntryP.WithContext (entry : EntryP) (h : Heap) (ctx : Nat) : EntryP × Heap :=
  let (addr, h) := h.alloc
  let h := h.copyInto addr ((h.read entry.Data).getD [])
  ({ logger := entry.logger, Data := addr, Time := entry.Time, Level := entry.Level
     Caller := entry.Caller, Context := ctx, Logger := none }, h)

/-- `Entry.WithTime` from the source (`logrus` variant): the composite
literal omits the exported `Logger` field, which therefore takes its zero
value, nil. -/
def EntryP.WithTime (entry : EntryP) (h : Heap) (t : Nat) : EntryP × Heap :=
  let (addr, h) := h.alloc
  let h := h.copyInto addr ((h.read entry.Data).getD [])
  ({ logger := entry.logger, Data := addr, Time := t, Level := entry.Level
     Caller := entry.Caller, Context := entry.Context, Logger := none }, h)

end LogrusPub

namespace Slogrus

/-! ## Trace observers used by the statements. -/

/-- Whether an event terminates control flow (process exit or panic). -/
def isTermEvent : Event → Bool
  | .exitProc _ => true
  | .panicked _ => true
  | _ => false

/-- Whether an event is a backend emission. -/
def isEmitEvent : Event → Bool
  | .emit _ _ _ => true
  | .emitAttrs _ _ _ _ => true
  | _ => false

/-- The trace ends in exactly the given terminating event, a backend
emission occurs strictly before it, and nothing terminates before it. -/
def terminatesLastAfterEmit (t : List Event) (term : Event) : Prop :=
  t.getLast? = some term ∧ t.dropLast.any isEmitEvent = true ∧
    t.dropLast.all (fun e => !isTermEvent e) = true

/-- The trace contains no process exit and no panic. -/
def noTermEvents (t : List Event) : Prop :=
  t.all (fun e => !isTermEvent e) = true

/-- The messages handed to the backend by a trace, in order. -/
def emittedMessages : List Event → List String
  | [] => []
  | .emit _ _ m :: rest => m :: emittedMessages rest
  | .emitAttrs _ _ m _ :: rest => m :: emittedMessages rest
  | _ :: rest => emittedMessages rest

/-- A concrete one-map heap used to instantiate hypothesis-bearing
theorems. -/
def sampleHeap : Heap :=
  ⟨[[("a", GoValue.str "x")]]⟩

/-- A concrete entry over `sampleHeap` used to instantiate
hypothesis-bearing theorems. -/
def sampleEntry : Entry :=
  { logger := New, Data := 0, Time := 0, Level := 0, Caller := none
    Context := backgroundContext }

end Slogrus

namespace LogrusPub

open Slogrus (slogLevelInfo stderrId)

/-- A concrete `logrus` variant logger used to instantiate
hypothesis-bearing theorems. -/
def sampleLoggerP : LoggerP :=
  { handler := { kind := .text, floor := slogLevelInfo, out := stderrId }
    Level := Slogrus.InfoLevel, Out := stderrId
    Formatter := .textF false false false }

end LogrusPub

namespace Slogrus

/-- Claim C1: `IsLevelEnabled(S)` is true exactly when `S`'s numeric value
is at most the logger's cached level (Panic=0 .. Trace=6); an enabled call
through `Logger.log` performs a backend emission of the formatted message,
and a call at any severity numerically above the cached level produces no
backend emission and no message formatting (the trace is empty). -/
theorem isLevelEnabled_filtering (logger : Logger) (s : Level) (args : List GoValue) :
    (logger.IsLevelEnabled s = true ↔ s ≤ logger.level)
    ∧ (s ≤ logger.level →
        Event.emit backgroundContext s.toSlogLevel (sprint args) ∈ logger.log s args)
    ∧ (logger.level < s → logger.log s args = []) := by
  refine ⟨by simp [Logger.IsLevelEnabled], ?_, ?_⟩
  · intro hle
    simp [Logger.log, Logger.IsLevelEnabled, hle]
  · intro hlt
    simp [Logger.log, Logger.IsLevelEnabled, Nat.not_le.mpr hlt]

theorem isLevelEnabled_filtering_witness :
    Event.emit backgroundContext InfoLevel.toSlogLevel (sprint [GoValue.str "a"]) ∈
        New.log InfoLevel [GoValue.str "a"]
      ∧ New.log TraceLevel [GoValue.str "a"] = [] := by
  exact ⟨(isLevelEnabled_filtering New InfoLevel [GoValue.str "a"]).2.1 (by decide),
    (isLevelEnabled_filtering New TraceLevel [GoValue.str "a"]).2.2 (by decide)⟩

/-- Claim C2 counterexample: the claim fails as stated.  A logger built
by `NewWithHandler` over a handler that is neither the backend text nor
JSON handler (`kind = other`, constructed with floor 8 on writer 5) keeps
that handler untouched across `SetLevel(Debug)`, so the cached level's
floor `toSlogLevel(Debug) = -4` disagrees with the handle's floor 8; and
`SetOutput(7)` likewise leaves the handle pointed at writer 5. -/
theorem setters_floor_agreement_counterexample :
    ((NewWithHandler ⟨.other, 8, 5⟩).SetLevel DebugLevel).handler.floor ≠
        DebugLevel.toSlogLevel
    ∧ ((NewWithHandler ⟨.other, 8, 5⟩).SetLevel DebugLevel).level = DebugLevel
    ∧ ((NewWithHandler ⟨.other, 8, 5⟩).SetOutput 7).handler.out ≠ 7 := by
  decide

/-- Claim C2 (amended): for every logger whose backend handler is the
text or the JSON handler, after `SetLevel(l)` the cached level is `l` and
the handle is rebuilt with floor `toSlogLevel(l)`, same rendering kind,
same output; and after `SetOutput(w)` the handle is rebuilt pointed at `w`
with the same rendering kind and the cached level's floor.  (For any other
handler kind the setters leave the backend handle unchanged, as the
counterexample shows.) -/
theorem setters_floor_agreement_amended (logger : Logger) (l : Level) (w : Nat)
    (hkind : logger.handler.kind = .text ∨ logger.handler.kind = .json) :
    ((logger.SetLevel l).level = l
      ∧ (logger.SetLevel l).handler.floor = l.toSlogLevel
      ∧ (logger.SetLevel l).handler.kind = logger.handler.kind
      ∧ (logger.SetLevel l).handler.out = logger.out)
    ∧ ((logger.SetOutput w).out = w
      ∧ (logger.SetOutput w).handler.floor = (logger.SetOutput w).level.toSlogLevel
      ∧ (logger.SetOutput w).level = logger.level
      ∧ (logger.SetOutput w).handler.kind = logger.handler.kind
      ∧ (logger.SetOutput w).handler.out = w) := by
  rcases hkind with hk | hk <;>
    simp [Logger.SetLevel, Logger.SetOutput, hk]

theorem setters_floor_agreement_witness :
    (New.handler.kind = HandlerKind.text ∨ New.handler.kind = HandlerKind.json)
    ∧ (New.SetLevel DebugLevel).handler.floor = DebugLevel.toSlogLevel := by
  refine ⟨Or.inl rfl, ((setters_floor_agreement_amended New DebugLevel 3 (Or.inl rfl)).1).2.1⟩

/-- Claim C4: `toSlogLevel` maps the seven named levels into the backend
severity space strictly order-reversingly (a numerically smaller, more
severe level maps to a strictly larger backend value); Fatal maps to the
backend Error value plus 4, Panic to the backend Error value plus the
larger offset 8, and Trace maps 4 below the backend's lowest named
severity (Debug). -/
theorem toSlogLevel_order_offsets :
    (∀ a ∈ AllLevels, ∀ b ∈ AllLevels, a < b → b.toSlogLevel < a.toSlogLevel)
    ∧ FatalLevel.toSlogLevel = slogLevelError + 4
    ∧ PanicLevel.toSlogLevel = slogLevelError + 8
    ∧ (0 : Int) < 4 ∧ (4 : Int) < 8
    ∧ TraceLevel.toSlogLevel = slogLevelDebug - 4
    ∧ TraceLevel.toSlogLevel < slogLevelDebug := by
  refine ⟨?_, by decide, by decide, by decide, by decide, by decide, by decide⟩
  intro a ha b hb hab
  simp [AllLevels, PanicLevel, FatalLevel, ErrorLevel, WarnLevel, InfoLevel,
    DebugLevel, TraceLevel] at ha hb
  rcases ha with rfl | rfl | rfl | rfl | rfl | rfl | rfl <;>
    rcases hb with rfl | rfl | rfl | rfl | rfl | rfl | rfl <;>
      first | exact absurd hab (by decide) | decide

theorem toSlogLevel_order_offsets_witness :
    FatalLevel ∈ AllLevels ∧ InfoLevel ∈ AllLevels ∧
      InfoLevel.toSlogLevel < FatalLevel.toSlogLevel := by
  refine ⟨by decide, by decide,
    (toSlogLevel_order_offsets).1 FatalLevel (by decide) InfoLevel (by decide) (by decide)⟩

/-- Claim C5: round-trip — for every one of the seven named levels `l`,
`ParseLevel (l.String)` returns `l` with a nil error (`WarnLevel` prints
as `"warning"`, which parses back to `WarnLevel`). -/
theorem parse_string_roundtrip (l : Level) (hl : l ∈ AllLevels) :
    ParseLevel (Level.String l) = (l, none) := by
  simp [AllLevels, PanicLevel, FatalLevel, ErrorLevel, WarnLevel, InfoLevel,
    DebugLevel, TraceLevel] at hl
  rcases hl with rfl | rfl | rfl | rfl | rfl | rfl | rfl <;> decide

theorem parse_string_roundtrip_witness :
    WarnLevel ∈ AllLevels ∧ ParseLevel (Level.String WarnLevel) = (WarnLevel, none) :=
  ⟨by decide, parse_string_roundtrip WarnLevel (by decide)⟩

end Slogrus

namespace LogrusPub

open Slogrus (GoValue FieldsData Heap HandlerKind)

/-- Claim C9: in the `logrus` variant whose `Entry` exposes a public
`Logger` field, `WithField` and `WithFields` return an entry whose
exported `Logger` field is the source's owning logger, while `WithContext`
and `WithTime` return an entry whose exported `Logger` field is nil, for
every source entry (including ones whose exported field is non-nil). -/
theorem with_methods_logger_field (e : EntryP) (h : Heap) (k : String) (v : GoValue)
    (m : FieldsData) (c t : Nat) :
    (e.WithField h k v).1.Logger = some e.logger
    ∧ (e.WithFields h m).1.Logger = some e.logger
    ∧ (e.WithContext h c).1.Logger = none
    ∧ (e.WithTime h t).1.Logger = none := by
  refine ⟨rfl, rfl, rfl, rfl⟩

/-- Claim C10: `SetFormatter` called with an argument that is neither a
`*TextFormatter` nor a `*JSONFormatter` — including nil — installs a text
handler on the standard logger at its current level and output, stores a
fresh zero-valued `TextFormatter` in the `Formatter` field, and preserves
the cached `Level` and the `Out` target. -/
theorem setFormatter_default_case (std : LoggerP) (f : FormatterV)
    (hft : ∀ a b c, f ≠ .textF a b c) (hfj : ∀ a b, f ≠ .jsonF a b) :
    (SetFormatter std f).handler.kind = .text
    ∧ (SetFormatter std f).handler.floor = std.Level.toSlogLevel
    ∧ (SetFormatter std f).handler.out = std.Out
    ∧ (SetFormatter std f).Formatter = .textF false false false
    ∧ (SetFormatter std f).Level = std.Level
    ∧ (SetFormatter std f).Out = std.Out := by
  cases f with
  | textF a b c => exact absurd rfl (hft a b c)
  | jsonF a b => exact absurd rfl (hfj a b)
  | otherF => simp [SetFormatter]
  | nilF => simp [SetFormatter]

theorem setFormatter_default_case_witness :
    (SetFormatter sampleLoggerP .nilF).handler.kind = HandlerKind.text
    ∧ (SetFormatter sampleLoggerP .nilF).Level = sampleLoggerP.Level := by
  have h := setFormatter_default_case sampleLoggerP .nilF (by decide) (by decide)
  exact ⟨h.1, h.2.2.2.2.1⟩

end LogrusPub

namespace Slogrus

/-- Claim C7: `ParseLevel` succeeds (nil error) exactly on the eight
case-sensitive strings `"panic"`, `"fatal"`, `"error"`, `"warn"`,
`"warning"`, `"info"`, `"debug"`, `"trace"`, with `"warn"` and
`"warning"` both yielding `WarnLevel`; on every other input it returns
`InfoLevel` together with a `ParseError` naming the invalid input.  The
embedding is a pure function, so the call has no side effect. -/
theorem parseLevel_exact_domain (s : String) :
    ((∃ l, ParseLevel s = (l, none)) ↔
      (s = "panic" ∨ s = "fatal" ∨ s = "error" ∨ s = "warn" ∨ s = "warning"
        ∨ s = "info" ∨ s = "debug" ∨ s = "trace"))
    ∧ ParseLevel "warn" = (WarnLevel, none)
    ∧ ParseLevel "warning" = (WarnLevel, none)
    ∧ ((s ≠ "panic" ∧ s ≠ "fatal" ∧ s ≠ "error" ∧ s ≠ "warn" ∧ s ≠ "warning"
        ∧ s ≠ "info" ∧ s ≠ "debug" ∧ s ≠ "trace") →
      ParseLevel s = (InfoLevel, some ⟨"not a valid logrus Level: \"" ++ s ++ "\""⟩)) := by
  refine ⟨?_, by decide, by decide, ?_⟩
  · unfold ParseLevel
    split_ifs with h1 h2 h3 h4 h5 h6 h7 h8 <;> simp_all
  · rintro ⟨h1, h2, h3, h4, h5, h6, h7, h8⟩
    simp [ParseLevel, h1, h2, h3, h4, h5, h6, h7, h8]

theorem parseLevel_exact_domain_witness :
    ParseLevel "bogus" =
      (InfoLevel, some ⟨"not a valid logrus Level: \"" ++ "bogus" ++ "\""⟩) :=
  (parseLevel_exact_domain "bogus").2.2.2 (by decide)

end Slogrus

namespace Slogrus

-- heap helper lemmas
theorem read_write_ne (h : Heap) (a b : Nat) (k : String) (v : GoValue)
    (hab : a ≠ b) : (h.write a k v).read b = h.read b := by
  simp [Heap.write, Heap.read, List.getElem?_set_ne hab]

theorem read_copyInto_ne (dst b : Nat) (hab : dst ≠ b) (src : FieldsData)
    (h : Heap) : (h.copyInto dst src).read b = h.read b := by
  induction src generalizing h with
  | nil => rfl
  | cons p rest ih =>
      cases p with
      | mk k v => simp [Heap.copyInto, ih, read_write_ne _ _ _ _ _ hab]

theorem read_alloc_lt (h : Heap) (b : Nat) (hb : b < h.maps.length) :
    (h.alloc).2.read b = h.read b := by
  simp [Heap.alloc, Heap.read, List.getElem?_append_left hb]

/-- Claim C3: `WithField` and `WithFields` leave the source entry's field
map entirely unchanged in the heap — same contents, hence the same size,
and the key `k` bound exactly as before — and the returned entry's map
lives at a different address, sharing no mutable state with the source. -/
theorem withField_preserves_source (h : Heap) (r1 : Entry) (k : String)
    (v : GoValue) (m : FieldsData) (hvalid : r1.Data < h.maps.length) :
    ((r1.WithField h k v).2.read r1.Data = h.read r1.Data
      ∧ (r1.WithField h k v).1.Data ≠ r1.Data
      ∧ (((r1.WithField h k v).2.read r1.Data).getD []).length
          = ((h.read r1.Data).getD []).length
      ∧ mapGet (((r1.WithField h k v).2.read r1.Data).getD []) k
          = mapGet ((h.read r1.Data).getD []) k)
    ∧ ((r1.WithFields h m).2.read r1.Data = h.read r1.Data
      ∧ (r1.WithFields h m).1.Data ≠ r1.Data) := by
  have hne : h.maps.length ≠ r1.Data := (Nat.ne_of_lt hvalid).symm
  have h1 : (r1.WithField h k v).2.read r1.Data = h.read r1.Data := by
    simp only [Entry.WithField, Heap.alloc]
    rw [read_write_ne _ _ _ _ _ hne, read_copyInto_ne _ _ hne,
      show (Heap.mk (h.maps ++ [[]])).read r1.Data = h.read r1.Data from
        read_alloc_lt h _ hvalid]
  have h2 : (r1.WithFields h m).2.read r1.Data = h.read r1.Data := by
    simp only [Entry.WithFields, Heap.alloc]
    rw [read_copyInto_ne _ _ hne, read_copyInto_ne _ _ hne,
      show (Heap.mk (h.maps ++ [[]])).read r1.Data = h.read r1.Data from
        read_alloc_lt h _ hvalid]
  refine ⟨⟨h1, ?_, by rw [h1], by rw [h1]⟩, h2, ?_⟩
  · show h.maps.length ≠ r1.Data
    exact hne
  · show h.maps.length ≠ r1.Data
    exact hne

theorem withField_preserves_source_witness :
    sampleEntry.Data < sampleHeap.maps.length
    ∧ (sampleEntry.WithField sampleHeap "b" (GoValue.str "y")).1.Data ≠ sampleEntry.Data
    ∧ (sampleEntry.WithField sampleHeap "b" (GoValue.str "y")).2.read sampleEntry.Data
        = sampleHeap.read sampleEntry.Data := by
  have h := withField_preserves_source sampleHeap sampleEntry "b" (GoValue.str "y")
    [("c", GoValue.num 1)] (by decide)
  exact ⟨by decide, h.1.2.1, h.1.1⟩

end Slogrus

namespace Slogrus

theorem stripTrailingNewline_append_newline (x : String) :
    stripTrailingNewline (x ++ "\n") = x := by
  have hdata : (x ++ "\n").data = x.data ++ ['\n'] := by
    simp [String.data_append]
  rw [stripTrailingNewline, if_pos]
  · rw [hdata]
    simp only [List.dropLast_concat]
  · constructor
    · simp [String.length_append]
      right; decide
    · rw [hdata]; simp

theorem strip_sprintln (args : List GoValue) :
    stripTrailingNewline (sprintln args)
      = String.intercalate " " (args.map GoValue.render) := by
  rw [sprintln, stripTrailingNewline_append_newline]

/-- Claim C8: for every enabled `logln`-family call, the message handed
to the backend equals the `fmt.Sprintln` rendering of the arguments
(space-joined) with the trailing newline removed — at both `Logger` and
`Entry` scope — so for arguments `"a"`, `"b"` the emitted message is
`"a b"`, which does not end in a newline. -/
theorem logln_message_spec (logger : Logger) (entry : Entry) (h : Heap)
    (level : Level) (args : List GoValue)
    (hen : logger.IsLevelEnabled level = true)
    (hen2 : entry.logger.IsLevelEnabled level = true) :
    stripTrailingNewline (sprintln args)
        = String.intercalate " " (args.map GoValue.render)
    ∧ String.intercalate " " (args.map GoValue.render)
        ∈ emittedMessages (logger.logln level args)
    ∧ String.intercalate " " (args.map GoValue.render)
        ∈ emittedMessages (entry.logln h level args)
    ∧ String.intercalate " " ([GoValue.str "a", GoValue.str "b"].map GoValue.render)
        = "a b"
    ∧ ("a b" : String).data.getLast? ≠ some '\n' := by
  refine ⟨strip_sprintln args, ?_, ?_, by decide, by decide⟩
  · simp [Logger.logln, hen, emittedMessages, strip_sprintln, fatalPanicTail]
  · simp only [Entry.logln, hen2, if_true, strip_sprintln, emitEntry]
    split_ifs <;> simp [emittedMessages]

theorem logln_message_spec_witness :
    New.IsLevelEnabled InfoLevel = true
    ∧ "a b" ∈ emittedMessages (New.logln InfoLevel [GoValue.str "a", GoValue.str "b"]) := by
  have h := logln_message_spec New sampleEntry sampleHeap InfoLevel
    [GoValue.str "a", GoValue.str "b"] (by decide) (by decide)
  refine ⟨by decide, ?_⟩
  have := h.2.1
  simpa using this

end Slogrus

namespace Slogrus

@[simp] theorem isTermEvent_fmtMsg (m : String) : isTermEvent (.fmtMsg m) = false := rfl
@[simp] theorem isTermEvent_emit (c : Nat) (l : Int) (m : String) :
    isTermEvent (.emit c l m) = false := rfl
@[simp] theorem isTermEvent_emitAttrs (c : Nat) (l : Int) (m : String) (a : FieldsData) :
    isTermEvent (.emitAttrs c l m a) = false := rfl
@[simp] theorem isEmitEvent_fmtMsg (m : String) : isEmitEvent (.fmtMsg m) = false := rfl
@[simp] theorem isEmitEvent_emit (c : Nat) (l : Int) (m : String) :
    isEmitEvent (.emit c l m) = true := rfl
@[simp] theorem isEmitEvent_emitAttrs (c : Nat) (l : Int) (m : String) (a : FieldsData) :
    isEmitEvent (.emitAttrs c l m a) = true := rfl

theorem tlae_shape (m : String) (x term : Event) (hx : isEmitEvent x = true)
    (hx2 : isTermEvent x = false) :
    terminatesLastAfterEmit [Event.fmtMsg m, x, term] term := by
  refine ⟨rfl, ?_, ?_⟩ <;> simp [hx, hx2]

theorem emitEntry_shape (h : Heap) (entry : Entry) (level : Level) (m : String) :
    ∃ x, emitEntry h entry level m = [x] ∧ isEmitEvent x = true ∧ isTermEvent x = false := by
  rw [emitEntry]
  split_ifs <;> exact ⟨_, rfl, rfl, rfl⟩

/-- Claim C6: on every emission path (plain, formatted and line variants,
at both `Logger` and `Entry` scope), an enabled Fatal-level call ends its
trace with process exit 1 and an enabled Panic-level call ends its trace
with a panic carrying the formatted message — in both cases the backend
emission occurs strictly before the terminating event and nothing
terminates earlier; at every other level no exit and no panic occurs. -/
theorem fatal_panic_after_emission (logger : Logger) (entry : Entry) (h : Heap)
    (level : Level) (format : String) (args : List GoValue) :
    (logger.IsLevelEnabled level = true →
      (level = FatalLevel →
        terminatesLastAfterEmit (logger.log level args) (.exitProc 1)
        ∧ terminatesLastAfterEmit (logger.logf level format args) (.exitProc 1)
        ∧ terminatesLastAfterEmit (logger.logln level args) (.exitProc 1))
      ∧ (level = PanicLevel →
        terminatesLastAfterEmit (logger.log level args) (.panicked (sprint args))
        ∧ terminatesLastAfterEmit (logger.logf level format args)
            (.panicked (sprintf format args))
        ∧ terminatesLastAfterEmit (logger.logln level args)
            (.panicked (stripTrailingNewline (sprintln args)))))
    ∧ (entry.logger.IsLevelEnabled level = true →
      (level = FatalLevel →
        terminatesLastAfterEmit (entry.log h level args) (.exitProc 1)
        ∧ terminatesLastAfterEmit (entry.logf h level format args) (.exitProc 1)
        ∧ terminatesLastAfterEmit (entry.logln h level args) (.exitProc 1))
      ∧ (level = PanicLevel →
        terminatesLastAfterEmit (entry.log h level args) (.panicked (sprint args))
        ∧ terminatesLastAfterEmit (entry.logf h level format args)
            (.panicked (sprintf format args))
        ∧ terminatesLastAfterEmit (entry.logln h level args)
            (.panicked (stripTrailingNewline (sprintln args)))))
    ∧ (level ≠ FatalLevel → level ≠ PanicLevel →
      noTermEvents (logger.log level args)
      ∧ noTermEvents (logger.logf level format args)
      ∧ noTermEvents (logger.logln level args)
      ∧ noTermEvents (entry.log h level args)
      ∧ noTermEvents (entry.logf h level format args)
      ∧ noTermEvents (entry.logln h level args)) := by
  obtain ⟨x1, he1, hx1, hx1t⟩ := emitEntry_shape h entry level (sprint args)
  obtain ⟨x2, he2, hx2, hx2t⟩ := emitEntry_shape h entry level (sprintf format args)
  obtain ⟨x3, he3, hx3, hx3t⟩ :=
    emitEntry_shape h entry level (stripTrailingNewline (sprintln args))
  refine ⟨?_, ?_, ?_⟩
  · intro hen
    constructor
    · intro hl
      subst hl
      refine ⟨?_, ?_, ?_⟩ <;>
        · simp only [Logger.log, Logger.logf, Logger.logln, hen, if_true,
            fatalPanicTail, if_pos rfl, List.cons_append, List.nil_append]
          exact tlae_shape _ _ _ rfl rfl
    · intro hl
      subst hl
      refine ⟨?_, ?_, ?_⟩ <;>
        · simp only [Logger.log, Logger.logf, Logger.logln, hen, if_true,
            fatalPanicTail]
          norm_num [PanicLevel, FatalLevel]
          exact tlae_shape _ _ _ rfl rfl
  · intro hen
    constructor
    · intro hl
      subst hl
      refine ⟨?_, ?_, ?_⟩
      · simp only [Entry.log, hen, if_true, he1, fatalPanicTail, if_pos rfl,
          List.cons_append, List.singleton_append, List.nil_append]
        exact tlae_shape _ _ _ hx1 hx1t
      · simp only [Entry.logf, hen, if_true, he2, fatalPanicTail, if_pos rfl,
          List.cons_append, List.singleton_append, List.nil_append]
        exact tlae_shape _ _ _ hx2 hx2t
      · simp only [Entry.logln, hen, if_true, he3, fatalPanicTail, if_pos rfl,
          List.cons_append, List.singleton_append, List.nil_append]
        exact tlae_shape _ _ _ hx3 hx3t
    · intro hl
      subst hl
      refine ⟨?_, ?_, ?_⟩
      · simp only [Entry.log, hen, if_true, he1, fatalPanicTail]
        norm_num [PanicLevel, FatalLevel]
        exact tlae_shape _ _ _ hx1 hx1t
      · simp only [Entry.logf, hen, if_true, he2, fatalPanicTail]
        norm_num [PanicLevel, FatalLevel]
        exact tlae_shape _ _ _ hx2 hx2t
      · simp only [Entry.logln, hen, if_true, he3, fatalPanicTail]
        norm_num [PanicLevel, FatalLevel]
        exact tlae_shape _ _ _ hx3 hx3t
  · intro hf hp
    have htail : ∀ m, fatalPanicTail level m = [] := by
      intro m; simp [fatalPanicTail, hf, hp]
    refine ⟨?_, ?_, ?_, ?_, ?_, ?_⟩
    · by_cases hen : logger.IsLevelEnabled level <;>
        simp [Logger.log, hen, htail, noTermEvents]
    · by_cases hen : logger.IsLevelEnabled level <;>
        simp [Logger.logf, hen, htail, noTermEvents]
    · by_cases hen : logger.IsLevelEnabled level <;>
        simp [Logger.logln, hen, htail, noTermEvents]
    · by_cases hen : entry.logger.IsLevelEnabled level <;>
        simp [Entry.log, hen, he1, htail, noTermEvents, hx1t]
    · by_cases hen : entry.logger.IsLevelEnabled level <;>
        simp [Entry.logf, hen, he2, htail, noTermEvents, hx2t]
    · by_cases hen : entry.logger.IsLevelEnabled level <;>
        simp [Entry.logln, hen, he3, htail, noTermEvents, hx3t]

theorem fatal_panic_after_emission_witness :
    New.IsLevelEnabled FatalLevel = true
    ∧ terminatesLastAfterEmit (New.log FatalLevel [GoValue.str "x"]) (.exitProc 1) := by
  have h := fatal_panic_after_emission New sampleEntry sampleHeap FatalLevel
    "f" [GoValue.str "x"]
  exact ⟨by decide, ((h.1 (by decide)).1 rfl).1⟩

end Slogrus
